import Mathlib

/-!
Shallow embedding of `Scripts/Winwing/microsoft_aircraft_ec135.py`:
a bridge reading MobiFlight LVAR values over SimConnect and rendering
annunciator labels onto a WinWing MCDU 14x24 character grid over a
websocket.

Modelling conventions: Python floats are modelled as exact decimals
`m * 10^t` (integer mantissa and exponent) plus explicit infinity/NaN
markers, so every comparison is executable integer arithmetic; strings
are Lean strings manipulated through structural list recursion; Python
dicts are association lists.
-/

namespace EC135

/-! ## Value normalization (`as01`) -/

/-- A Python float value: `fin m t` is the exact decimal `m * 10^t`
(integer mantissa `m`, integer power-of-ten exponent `t`), and the
non-finite values `inf`, `-inf`, `nan` are explicit. -/
inductive PyNum where
  | fin : ℤ → ℤ → PyNum
  | inf : PyNum
  | neginf : PyNum
  | nan : PyNum
  deriving DecidableEq, Repr

/-- The rational value of a finite `PyNum` (`nan`/`inf` have none; they are
handled directly by the comparison below). -/
def PyNum.toQ (x : PyNum) : ℚ :=
  match x with
  | .fin m t => (m : ℚ) * 10 ^ t
  | _ => 0

/-- Python `x < p/q` for a float `x` and a positive rational threshold
`p/q`: comparisons against NaN are false, `-inf < p/q` is true,
`inf < p/q` is false; finite decimals compare by cross-multiplication. -/
def PyNum.ltRat (x : PyNum) (p : ℤ) (q : ℕ) : Bool :=
  match x with
  | .fin m t =>
    if 0 ≤ t then decide (m * 10 ^ t.toNat * q < p)
    else decide (m * q < p * 10 ^ (-t).toNat)
  | .inf => false
  | .neginf => true
  | .nan => false

/-- The raw inputs `as01` can receive from the variable layer:
`None`, a bool, an int/float, or a string. -/
inductive PyVal where
  | none : PyVal
  | bool : Bool → PyVal
  | num : PyNum → PyVal
  | str : String → PyVal
  deriving DecidableEq, Repr

/-- ASCII whitespace, the characters Python `str.strip()` removes
(Unicode whitespace beyond ASCII is not modelled). -/
def isPySpace (c : Char) : Bool :=
  c = ' ' ∨ c = '\t' ∨ c = '\n' ∨ c = '\x0d' ∨ c = '\x0b' ∨ c = '\x0c'

/-- Strip every leading and trailing character satisfying `p`
(the common core of Python `strip()` and `strip(c)`). -/
def stripEnds (p : Char → Bool) (cs : List Char) : List Char :=
  ((cs.dropWhile p).reverse.dropWhile p).reverse

/-- Python `str.lower()` on one ASCII character (non-ASCII case mapping
is not modelled; the source's inputs are ASCII). -/
def pyLower (c : Char) : Char :=
  if 'A' ≤ c ∧ c ≤ 'Z' then Char.ofNat (c.toNat + 32) else c

/-- Parse an unsigned decimal digit run to a natural number;
`Option.none` if empty or not all digits. -/
def digitsToNat? (cs : List Char) : Option ℕ :=
  if cs.isEmpty ∨ ¬ cs.all Char.isDigit then Option.none
  else Option.some (cs.foldl (fun acc c => acc * 10 + (c.toNat - '0'.toNat)) 0)

/-- Split a character list at the first occurrence of `c`. -/
def splitAtChar (c : Char) (cs : List Char) : List Char × Option (List Char) :=
  match cs.findIdx? (· == c) with
  | Option.none => (cs, Option.none)
  | Option.some i => (cs.take i, Option.some (cs.drop (i + 1)))

/-- Model of the Python built-in `float(s)` on an already lower-cased
string: optional surrounding whitespace, optional sign, then either
`inf`/`infinity`/`nan` or a decimal literal `ddd[.ddd][e[±]ddd]` (at
least one digit before the exponent; digit-group underscores are not
modelled, and decimal literals are taken exactly rather than rounded to
binary). Returns `Option.none` where Python raises `ValueError`. -/
def pyFloat? (cs0 : List Char) : Option PyNum :=
  let cs := stripEnds isPySpace cs0
  let (sign, body) :=
    match cs with
    | '+' :: rest => ((1 : ℤ), rest)
    | '-' :: rest => ((-1 : ℤ), rest)
    | rest => ((1 : ℤ), rest)
  if body = "inf".toList ∨ body = "infinity".toList then
    Option.some (if sign = 1 then PyNum.inf else PyNum.neginf)
  else if body = "nan".toList then
    Option.some PyNum.nan
  else
    let (mant, expPart) := splitAtChar 'e' body
    let (intPart, fracPart) := splitAtChar '.' mant
    let fracDigits := fracPart.getD []
    if intPart.isEmpty ∧ fracDigits.isEmpty then Option.none
    else
      match digitsToNat? (intPart ++ fracDigits) with
      | Option.none => Option.none
      | Option.some mdigits =>
        let m : ℤ := sign * mdigits
        match expPart with
        | Option.none => Option.some (PyNum.fin m (-(fracDigits.length : ℤ)))
        | Option.some ecs =>
          let (esign, edigits) :=
            match ecs with
            | '+' :: rest => ((1 : ℤ), rest)
            | '-' :: rest => ((-1 : ℤ), rest)
            | rest => ((1 : ℤ), rest)
          match digitsToNat? edigits with
          | Option.none => Option.none
          | Option.some e =>
            Option.some (PyNum.fin m (esign * e - (fracDigits.length : ℤ)))

/-- The numeric three-way rule shared by the numeric and parsed-string
branches of `as01`: `f < 0.5 → 0`, `f < 1.5 → 1`, otherwise `2`. -/
def numRule (f : PyNum) : ℕ :=
  if f.ltRat 1 2 then 0 else if f.ltRat 3 2 then 1 else 2

/-- `as01(v)` from the source: normalize a raw LVAR value to `{0,1,2}`.
`None → 0`; bools map to `1`/`0`; numbers use `numRule`; strings are
stripped of whitespace, then `"` quotes, then `'` quotes, lower-cased,
matched against token lists, and otherwise parsed with `float`; any
parse failure yields `0` (the bare `except` in the source). -/
def as01 (v : PyVal) : ℕ :=
  match v with
  | .none => 0
  | .bool b => if b then 1 else 0
  | .num f => numRule f
  | .str s0 =>
    let cs := (stripEnds (· == '\'')
      (stripEnds (· == '"') (stripEnds isPySpace s0.toList))).map pyLower
    let s := String.mk cs
    if s = "2" ∨ s = "two" then 2
    else if s = "1" ∨ s = "true" ∨ s = "on" ∨ s = "yes" ∨ s = "y" then 1
    else if s = "0" ∨ s = "false" ∨ s = "off" ∨ s = "no" ∨ s = "n" ∨ s = "" then 0
    else
      match pyFloat? cs with
      | Option.some f => numRule f
      | Option.none => 0

/-! ## Variable Access Layer (`MobiFlightVariableRequests`) -/

/-- `SimVariable` from the source: one tracked LVAR.  A fresh variable has
`float_value = None` and `initialized = False`; both change only in the
notification callback (and `float_value` in the dead-code default branch
of `get`). -/
structure SimVariable where
  id : ℕ
  name : String
  float_value : Option ℚ
  initialized : Bool
  deriving DecidableEq, Repr

/-- The mutable state of `MobiFlightVariableRequests`: the two dicts
(`sim_vars` keyed by identifier, `sim_var_name_to_id` keyed by name,
both as insertion-ordered association lists), plus observation logs of
the transport calls made (`subscriptions` records each identifier passed
to `subscribe_to_data_change`, `commands` each string passed to
`send_command`). -/
structure MobiState where
  sim_vars : List (ℕ × SimVariable)
  sim_var_name_to_id : List (String × ℕ)
  subscriptions : List ℕ
  commands : List String
  deriving DecidableEq, Repr

/-- The state right after `__init__` (the client-data-area setup is a
transport call with no effect on these dicts). -/
def initMobi : MobiState := ⟨[], [], [], []⟩

/-- Store `v` under key `k`: overwrite in place if present (Python dict
assignment to an existing key), else append (insertion order). -/
def dictInsert (k : ℕ) (v : SimVariable) (d : List (ℕ × SimVariable)) :
    List (ℕ × SimVariable) :=
  if (d.lookup k).isSome then d.map (fun p => if p.1 = k then (k, v) else p)
  else d ++ [(k, v)]

/-- `client_data_callback_handler` from the source, with the 4-byte float
already decoded and rounded to 5 digits: a known identifier gets
`initialized := true` and the value stored; an unknown identifier is
logged and discarded. -/
def client_data_callback_handler (st : MobiState) (defineID : ℕ)
    (float_value : ℚ) : MobiState :=
  match st.sim_vars.lookup defineID with
  | Option.none => st
  | Option.some sim_var =>
    let sim_var' : SimVariable :=
      { sim_var with initialized := true, float_value := Option.some float_value }
    { st with sim_vars := dictInsert defineID sim_var' st.sim_vars }

/-- The observable outcome of one `get` call: the returned value, the
identifier resolved for the name, the number of 10 ms wait-loop polls
performed, and the state afterwards. -/
structure GetResult where
  value : Option ℚ
  variable_id : ℕ
  waitPolls : ℕ
  state : MobiState
  deriving DecidableEq, Repr

/-- `get(variableString)` from the source, in the sequential model where
no notification callback runs during the call (the "never notified"
scenario of the spec): first use assigns identifier `len(sim_vars) + 1`,
registers the data definition/subscription and sends `MF.SimVars.Add.`;
the wait loop then polls up to 50 times, which in this model is exactly
50 iff the value is still `None`; the `0.0` default is substituted only
when `float_value is None and initialized`. -/
def get (st0 : MobiState) (variableString : String) : GetResult :=
  let st :=
    if (st0.sim_var_name_to_id.lookup variableString).isSome then st0
    else
      let id := st0.sim_vars.length + 1
      { st0 with
        sim_vars := st0.sim_vars ++ [(id, ⟨id, variableString, Option.none, false⟩)],
        sim_var_name_to_id := st0.sim_var_name_to_id ++ [(variableString, id)],
        subscriptions := st0.subscriptions ++ [id],
        commands := st0.commands ++ ["MF.SimVars.Add." ++ variableString] }
  let variable_id := (st.sim_var_name_to_id.lookup variableString).getD 0
  match st.sim_vars.lookup variable_id with
  | Option.none => ⟨Option.none, variable_id, 0, st⟩
  | Option.some sim_var =>
    let polls := if sim_var.float_value = Option.none then 50 else 0
    if sim_var.float_value = Option.none ∧ sim_var.initialized then
      let sim_var' : SimVariable := { sim_var with float_value := Option.some 0 }
      let st' : MobiState :=
        { st with sim_vars := dictInsert variable_id sim_var' st.sim_vars }
      ⟨sim_var'.float_value, variable_id, polls, st'⟩
    else ⟨sim_var.float_value, variable_id, polls, st⟩

/-- `clear_sim_variables` from the source: empty both dicts and send
`MF.SimVars.Clear`. -/
def clear_sim_variables (st : MobiState) : MobiState :=
  { st with
    sim_vars := [],
    sim_var_name_to_id := [],
    commands := st.commands ++ ["MF.SimVars.Clear"] }

/-! ## Label compaction and paging -/

/-- `compact_labels(pairs)` from the source:
`[label for val, label in pairs if val == 1]`. -/
def compact_labels (pairs : List (ℕ × String)) : List String :=
  match pairs with
  | [] => []
  | (val, label) :: rest =>
    if val = 1 then label :: compact_labels rest else compact_labels rest

/-- Python list slicing `l[a:b]` for non-negative bounds: indices
`a ≤ i < b`, clamped to the list, never raising. -/
def pySlice {α : Type} (l : List α) (a b : ℕ) : List α :=
  (l.take b).drop a

/-! ## MCDU display grid -/

def CDU_COLUMNS : ℕ := 24
def CDU_ROWS : ℕ := 14
def LARGE : ℕ := 0
def SMALL : ℕ := 1

/-- One display cell: a fresh grid holds the default `[]` (empty list);
a written cell is the triple `[glyph, colour, size]`. -/
inductive Cell where
  | empty : Cell
  | mk : String → String → ℕ → Cell
  deriving DecidableEq, Repr

/-- The 14x24 character matrix, row-major (list of rows). -/
abbrev Grid := List (List Cell)

/-- `empty_grid()` from the source. -/
def empty_grid : Grid :=
  List.replicate CDU_ROWS (List.replicate CDU_COLUMNS Cell.empty)

/-- The `REPLACED` table read through `.get(ch, ch)`: the handful of
special glyphs are substituted, everything else passes through. -/
def replacedChar (c : Char) : Char :=
  if c = '←' then '←'
  else if c = '→' then '→'
  else if c = '↑' then '↑'
  else if c = '↓' then '↓'
  else if c = '_' then '☐'
  else if c = '°' then '°'
  else if c = '&' then 'Δ'
  else if c = ' ' then ' '
  else if c = '\x7b' then '←'
  else if c = '\x7d' then '→'
  else if c = '|' then '/'
  else c

/-- Apply `f` to row `r` of the grid (out-of-range: unchanged). -/
def modifyRow (grid : Grid) (r : ℕ) (f : List Cell → List Cell) : Grid :=
  match grid.get? r with
  | Option.none => grid
  | Option.some cells => grid.set r (f cells)

/-- The inner loop of `put_text`: place the characters of `text` at
columns `col, col+1, ...`, silently dropping any character whose column
falls outside `[0, 24)`. -/
def putRow (cells : List Cell) (chars : List Char) (col : ℤ) (colour : String)
    (size : ℕ) : List Cell :=
  match chars with
  | [] => cells
  | ch :: rest =>
    let cells' :=
      if 0 ≤ col ∧ col < CDU_COLUMNS then
        cells.set col.toNat (Cell.mk (String.mk [replacedChar ch]) colour size)
      else cells
    putRow cells' rest (col + 1) colour size

/-- `put_text(grid, text, row, col, colour, size)` from the source: a row
outside `[0, 14)` makes the whole call a no-op; otherwise each character
is written at its column if that column is inside `[0, 24)`. -/
def put_text (grid : Grid) (text : String) (row : ℤ) (col : ℤ)
    (colour : String) (size : ℕ) : Grid :=
  if 0 ≤ row ∧ row < CDU_ROWS then
    modifyRow grid row.toNat (fun cells => putRow cells text.toList col colour size)
  else grid

/-- `put_text_center` from the source: truncate to 24 characters, centre
horizontally, delegate to `put_text`. -/
def put_text_center (grid : Grid) (text : String) (row : ℤ) (colour : String)
    (size : ℕ) : Grid :=
  let text' := text.toList.take CDU_COLUMNS
  put_text grid (String.mk text') row (((CDU_COLUMNS : ℤ) - text'.length) / 2)
    colour size

/-- `clear_area_with_spaces(grid, r0, r1, c0, c1, colour, size)` from the
source: rows `r0..r1` inclusive, columns `c0..c1-1`, each cell set to a
space with the given colour and size. -/
def clear_area_with_spaces (grid : Grid) (r0 r1 c0 c1 : ℕ) (colour : String)
    (size : ℕ) : Grid :=
  (List.range' r0 (r1 + 1 - r0)).foldl
    (fun g r => modifyRow g r (fun cells =>
      (List.range' c0 (c1 - c0)).foldl
        (fun acc c => acc.set c (Cell.mk " " colour size)) cells))
    grid

def LEFT_COL_START : ℤ := 0
def RIGHT_COL_START : ℤ := 13
def CONTENT_FIRST_ROW : ℕ := 0
def CONTENT_LAST_ROW : ℕ := CDU_ROWS - 2
def MAX_ROWS : ℕ := CONTENT_LAST_ROW - CONTENT_FIRST_ROW + 1

/-- Python `str.ljust(n)` on a character list. -/
def ljust (cs : List Char) (n : ℕ) : List Char :=
  cs ++ List.replicate (n - cs.length) ' '

/-- One column loop of `draw_columns`: labels (already truncated to
`MAX_ROWS`) written top-down; each label is cut to `width` characters and
left-justified to `width`; the loop stops once the row passes
`CONTENT_LAST_ROW`. -/
def drawList (grid : Grid) (labels : List String) (row : ℕ) (colStart : ℤ)
    (width : ℕ) : Grid :=
  match labels with
  | [] => grid
  | lbl :: rest =>
    let g := put_text grid (String.mk (ljust (lbl.toList.take width) width))
      (row : ℤ) colStart "a" LARGE
    if CONTENT_LAST_ROW < row + 1 then g
    else drawList g rest (row + 1) colStart width

/-- `draw_columns(grid, left_labels, right_labels)` from the source:
clear rows 0..12 (all 24 columns) to white spaces, then draw the left
column (12-character field at column 0) and the right column
(11-character field at column 13). -/
def draw_columns (grid : Grid) (left_labels right_labels : List String) : Grid :=
  let g := clear_area_with_spaces grid CONTENT_FIRST_ROW CONTENT_LAST_ROW
    0 CDU_COLUMNS "w" 0
  let g := drawList g (left_labels.take MAX_ROWS) CONTENT_FIRST_ROW
    LEFT_COL_START 12
  drawList g (right_labels.take MAX_ROWS) CONTENT_FIRST_ROW RIGHT_COL_START 11

/-- The JSON document `grid_to_payload` serializes (`json.dumps` itself is
a library call; the document structure is what is modelled):
`{"Target": "Display", "Data": [cell, cell, ...]}`. -/
structure Payload where
  target : String
  data : List Cell
  deriving DecidableEq, Repr

/-- `grid_to_payload(grid)` from the source: `Data` is
`list(chain(*grid))`, the row-major concatenation of the rows. -/
def grid_to_payload (grid : Grid) : Payload :=
  { target := "Display", data := grid.flatten }

/-- The cell at row `r`, column `c`. -/
def cellAt (grid : Grid) (r c : ℕ) : Option Cell :=
  (grid.get? r).bind (fun row => row.get? c)

/-! ## Reconnecting sender (`McduSocket`) -/

/-- The mutable state of `McduSocket`, plus observation logs: `ws` is the
connection handle (handles numbered in creation order; `None` when
absent or discarded), `nextConn` the number `_connect` gives the next
connection, `opCount` a global counter of transport operations performed
(connect, send or ping — it indexes the failure pattern), `lastPing` the
`_last_ping` timestamp, `sendCalls` how many times `ws.send` ran,
`closed` the connections closed so far, `sent` the payloads delivered.
Timestamps are modelled as integer seconds; only the 20-second-interval
comparison consumes them. -/
structure McduSocketState where
  ws : Option ℕ
  nextConn : ℕ
  opCount : ℕ
  lastPing : ℤ
  sendCalls : ℕ
  closed : List ℕ
  sent : List Payload
  deriving DecidableEq, Repr

/-- `McduSocket(url)`: no connection yet, `_last_ping = 0.0`. -/
def initMcdu : McduSocketState := ⟨Option.none, 0, 0, 0, 0, [], []⟩

/-- `_maybe_ping`, reached only after a successful send at time `now`:
if at least 20 seconds elapsed since the last probe, ping; a failing
ping is caught, the connection is closed and discarded (the next send
will reconnect) and `_last_ping` is not advanced. `fail n` says whether
the `n`-th transport operation raises a transport error. -/
def maybe_ping (fail : ℕ → Bool) (now : ℤ) (s : McduSocketState) :
    McduSocketState :=
  if 20 ≤ now - s.lastPing then
    match s.ws with
    | Option.none => s
    | Option.some conn =>
      let s1 := { s with opCount := s.opCount + 1 }
      if fail s.opCount then
        { s1 with ws := Option.none, closed := s1.closed ++ [conn] }
      else
        { s1 with lastPing := now }
  else s

/-- The `ws.send(payload)` step and what follows inside one `try` body:
on success, log, `_maybe_ping`, `return`; a raising send is caught by
the `except (WebSocketException, OSError)` handler, which closes and
discards the connection. -/
def sendOnOpen (fail : ℕ → Bool) (now : ℤ) (payload : Payload)
    (s : McduSocketState) : Bool × McduSocketState :=
  match s.ws with
  | Option.none => (false, s)
  | Option.some conn =>
    let s2 := { s with opCount := s.opCount + 1, sendCalls := s.sendCalls + 1 }
    if fail s.opCount then
      (false, { s2 with ws := Option.none, closed := s2.closed ++ [conn] })
    else
      (true, maybe_ping fail now { s2 with sent := s2.sent ++ [payload] })

/-- One iteration of `send_grid`'s `for attempt in (1, 2)` loop: `_ensure`
(connect when there is no handle; a raising `create_connection` is caught
with nothing to close) and then the send step.  Returns `true` iff the
body reached its `return`. -/
def sendAttempt (fail : ℕ → Bool) (now : ℤ) (payload : Payload)
    (s : McduSocketState) : Bool × McduSocketState :=
  match s.ws with
  | Option.none =>
    if fail s.opCount then
      (false, { s with opCount := s.opCount + 1 })
    else
      sendOnOpen fail now payload
        { s with
          opCount := s.opCount + 1,
          ws := Option.some s.nextConn,
          nextConn := s.nextConn + 1 }
  | Option.some _ => sendOnOpen fail now payload s

/-- `send_grid(grid)` from the source: serialize the grid, then attempt
the send, retrying exactly once after a caught failure; when both
attempts fail the function just logs and returns. -/
def send_grid (fail : ℕ → Bool) (now : ℤ) (grid : Grid)
    (s : McduSocketState) : McduSocketState :=
  let payload := grid_to_payload grid
  let r1 := sendAttempt fail now payload s
  if r1.1 then r1.2
  else (sendAttempt fail now payload r1.2).2

/-! ## Theorems: normalization, compaction, paging -/

/-- Bridge between the executable integer comparison `ltRat` and the
rational value of a finite decimal. -/
theorem ltRat_fin_iff (m t p : ℤ) (q : ℕ) (hq : 0 < q) :
    (PyNum.fin m t).ltRat p q = true ↔ (m : ℚ) * 10 ^ t < (p : ℚ) / (q : ℚ) := by
  have hq' : (0 : ℚ) < (q : ℚ) := by exact_mod_cast hq
  show (if 0 ≤ t then decide (m * 10 ^ t.toNat * q < p)
      else decide (m * q < p * 10 ^ (-t).toNat)) = true ↔ _
  split_ifs with ht
  · rw [decide_eq_true_iff, lt_div_iff₀ hq']
    rw [show (10 : ℚ) ^ t = (10 : ℚ) ^ t.toNat by
      rw [← zpow_natCast (10 : ℚ) t.toNat, Int.toNat_of_nonneg ht]]
    exact_mod_cast Iff.rfl
  · push_neg at ht
    rw [decide_eq_true_iff]
    rw [show (10 : ℚ) ^ t = ((10 : ℚ) ^ (-t).toNat)⁻¹ by
      rw [← zpow_natCast (10 : ℚ) (-t).toNat,
        Int.toNat_of_nonneg (by omega : (0 : ℤ) ≤ -t), ← zpow_neg, neg_neg]]
    rw [← div_eq_mul_inv, div_lt_div_iff₀ (by positivity) hq']
    exact_mod_cast Iff.rfl

/-- C2: `as01` is total into `{0,1,2}`: `None ↦ 0`, `True/False ↦ 1/0`,
a finite numeric `m·10^t` follows the thresholds at `1/2` and `3/2`, the
token strings map to their listed codes (quote/whitespace stripping and
case folding included), other strings are parsed as numbers with the
same thresholds, and unparsable strings yield `0`. -/
theorem as01_spec :
    (∀ v : PyVal, as01 v = 0 ∨ as01 v = 1 ∨ as01 v = 2) ∧
    as01 PyVal.none = 0 ∧ as01 (.bool true) = 1 ∧ as01 (.bool false) = 0 ∧
    (∀ m t : ℤ, as01 (.num (.fin m t)) =
      if (m : ℚ) * 10 ^ t < 1/2 then 0
      else if (m : ℚ) * 10 ^ t < 3/2 then 1 else 2) ∧
    as01 (.num (.fin 4 (-1))) = 0 ∧ as01 (.num (.fin 5 (-1))) = 1 ∧
    as01 (.num (.fin 15 (-1))) = 2 ∧
    as01 (.str "2") = 2 ∧ as01 (.str "two") = 2 ∧
    as01 (.str "1") = 1 ∧ as01 (.str "true") = 1 ∧ as01 (.str "on") = 1 ∧
    as01 (.str "yes") = 1 ∧ as01 (.str "y") = 1 ∧
    as01 (.str "0") = 0 ∧ as01 (.str "false") = 0 ∧ as01 (.str "off") = 0 ∧
    as01 (.str "no") = 0 ∧ as01 (.str "n") = 0 ∧ as01 (.str "") = 0 ∧
    as01 (.str " \x22ON\x22 ") = 1 ∧ as01 (.str "'two'") = 2 ∧
    as01 (.str "0.4") = 0 ∧ as01 (.str "1.2") = 1 ∧ as01 (.str "7") = 2 ∧
    as01 (.str "1.5e0") = 2 ∧ as01 (.str "garbage") = 0 := by
  refine ⟨?_, ?_, ?_, ?_, ?_, ?_, ?_, ?_, ?_, ?_, ?_, ?_, ?_, ?_, ?_, ?_,
    ?_, ?_, ?_, ?_, ?_, ?_, ?_, ?_, ?_, ?_, ?_, ?_⟩
  · intro v
    cases v with
    | none => left; rfl
    | bool b => cases b <;> simp [as01]
    | num f =>
      simp only [as01, numRule]
      split_ifs <;> simp
    | str s =>
      simp only [as01]
      split_ifs <;> simp_all [numRule]
      split <;> [skip; simp]
      split_ifs <;> simp
  · rfl
  · rfl
  · rfl
  · intro m t
    have h1 := ltRat_fin_iff m t 1 2 (by norm_num)
    have h3 := ltRat_fin_iff m t 3 2 (by norm_num)
    norm_num at h1 h3
    simp only [as01, numRule]
    by_cases hA : (m : ℚ) * 10 ^ t < 1/2
    · rw [if_pos (h1.mpr hA), if_pos hA]
    · rw [if_neg (fun hb => hA (h1.mp hb)), if_neg hA]
      by_cases hB : (m : ℚ) * 10 ^ t < 3/2
      · rw [if_pos (h3.mpr hB), if_pos hB]
      · rw [if_neg (fun hb => hB (h3.mp hb)), if_neg hB]
  all_goals decide

/-- `List.lookup` skips a prefix in which the key is absent. -/
theorem lookup_append_of_none {α β : Type} [BEq α] (l1 l2 : List (α × β)) (a : α)
    (h : l1.lookup a = Option.none) : (l1 ++ l2).lookup a = l2.lookup a := by
  induction l1 with
  | nil => rfl
  | cons p rest ih =>
    cases p with
    | mk k v =>
      by_cases hk : (a == k) = true
      · simp [List.lookup, hk] at h
      · simp only [List.cons_append, List.lookup, hk] at h ⊢
        exact ih h

/-- C1 counterexample: on a fresh layer, `get` of a never-notified name
returns `None` — not `0.0` — and leaves the variable's `initialized`
flag `false`. -/
theorem get_pending_counterexample :
    (get initMobi "(L:engine1Fail)").value = Option.none ∧
    (get initMobi "(L:engine1Fail)").value ≠ Option.some 0 ∧
    ((get initMobi "(L:engine1Fail)").state.sim_vars.lookup 1).map
      SimVariable.initialized = Option.some false := by decide

/-- C1 (amended): `get` on a pending variable for which no notification has
ever arrived polls exactly 50 times (10 ms each) — so the wait is bounded —
and then returns `None` and leaves the state (in particular the
`initialized` flag) unchanged; the `0.0` default is not substituted because
it requires `initialized`, which only the notification callback sets. -/
theorem get_never_notified (st : MobiState) (name : String) (id : ℕ)
    (v : SimVariable)
    (hid : st.sim_var_name_to_id.lookup name = Option.some id)
    (hv : st.sim_vars.lookup id = Option.some v)
    (hval : v.float_value = Option.none)
    (hinit : v.initialized = false) :
    (get st name).waitPolls = 50 ∧ (get st name).waitPolls ≤ 50 ∧
    (get st name).value = Option.none ∧
    (get st name).state = st := by
  simp [get, hid, hv, hval, hinit]

/-- Witness for C1's amended theorem: the pending variable created by a
first `get` on a fresh layer. -/
theorem get_never_notified_witness :
    ((get initMobi "X").state.sim_var_name_to_id.lookup "X" = Option.some 1 ∧
     (get initMobi "X").state.sim_vars.lookup 1
       = Option.some ⟨1, "X", Option.none, false⟩) ∧
    (get (get initMobi "X").state "X").waitPolls = 50 ∧
    (get (get initMobi "X").state "X").value = Option.none ∧
    (get (get initMobi "X").state "X").state = (get initMobi "X").state := by
  have h := get_never_notified (get initMobi "X").state "X" 1
    ⟨1, "X", Option.none, false⟩ (by decide) (by decide) rfl rfl
  exact ⟨⟨by decide, by decide⟩, h.1, h.2.2.1, h.2.2.2⟩

/-- C3: identifiers are dense and stable: the fresh-layer trace
`get "X"; get "Y"; get "X"` resolves identifiers 1, 2, 1; a `get` on a
known name keeps its identifier and performs no reassignment,
no new subscription and no new command; a `get` on an unseen name assigns
`len(sim_vars) + 1` and appends exactly that binding to the name map. -/
theorem identifier_assignment_spec :
    ((get initMobi "X").variable_id = 1 ∧
     (get (get initMobi "X").state "Y").variable_id = 2 ∧
     (get (get (get initMobi "X").state "Y").state "X").variable_id = 1) ∧
    (∀ (st : MobiState) (name : String) (id : ℕ),
      st.sim_var_name_to_id.lookup name = Option.some id →
      (get st name).variable_id = id ∧
      (get st name).state.sim_var_name_to_id = st.sim_var_name_to_id ∧
      (get st name).state.subscriptions = st.subscriptions ∧
      (get st name).state.commands = st.commands) ∧
    (∀ (st : MobiState) (name : String),
      st.sim_var_name_to_id.lookup name = Option.none →
      (get st name).variable_id = st.sim_vars.length + 1 ∧
      (get st name).state.sim_var_name_to_id
        = st.sim_var_name_to_id ++ [(name, st.sim_vars.length + 1)]) := by
  refine ⟨by decide, ?_, ?_⟩
  · intro st name id hid
    cases hv : st.sim_vars.lookup id with
    | none => simp [get, hid, hv]
    | some v =>
      by_cases hc : v.float_value = Option.none ∧ v.initialized = true <;>
        simp [get, hid, hv, hc]
  · intro st name hfresh
    have hl : ((st.sim_var_name_to_id ++ [(name, st.sim_vars.length + 1)]).lookup name)
        = Option.some (st.sim_vars.length + 1) := by
      rw [lookup_append_of_none _ _ _ hfresh]
      simp [List.lookup]
    cases hv : (st.sim_vars ++
        [(st.sim_vars.length + 1,
          (⟨st.sim_vars.length + 1, name, Option.none, false⟩ : SimVariable))]).lookup
        (st.sim_vars.length + 1) with
    | none => simp [get, hfresh, hl, hv]
    | some v =>
      by_cases hc : v.float_value = Option.none ∧ v.initialized = true <;>
        simp [get, hfresh, hl, hv, hc]

/-- Witness for C3 at concrete states: the known-name case on the state
after `get "X"`, the unseen-name case on the fresh layer. -/
theorem identifier_assignment_spec_witness :
    ((get initMobi "X").state.sim_var_name_to_id.lookup "X" = Option.some 1 ∧
     (get (get initMobi "X").state "X").variable_id = 1 ∧
     (get (get initMobi "X").state "X").state.sim_var_name_to_id
       = (get initMobi "X").state.sim_var_name_to_id) ∧
    (initMobi.sim_var_name_to_id.lookup "X" = Option.none ∧
     (get initMobi "X").variable_id = initMobi.sim_vars.length + 1) := by
  have h2 := (identifier_assignment_spec.2.1 (get initMobi "X").state "X" 1 (by decide))
  have h3 := (identifier_assignment_spec.2.2 initMobi "X" (by decide))
  exact ⟨⟨by decide, h2.1, h2.2.1⟩, ⟨by decide, h3.1⟩⟩

/-- C10: `clear_sim_variables` empties both dicts (and sends
`MF.SimVars.Clear`), and the next `get` of any name — including one seen
before the reset — assigns identifier 1 again, so numbering restarts
from 1 rather than continuing from the previous maximum. -/
theorem clear_sim_variables_spec :
    (∀ st : MobiState,
      (clear_sim_variables st).sim_vars = [] ∧
      (clear_sim_variables st).sim_var_name_to_id = [] ∧
      (clear_sim_variables st).commands = st.commands ++ ["MF.SimVars.Clear"]) ∧
    (∀ (st : MobiState) (name : String),
      (get (clear_sim_variables st) name).variable_id = 1 ∧
      (get (clear_sim_variables st) name).state.sim_var_name_to_id
        = [(name, 1)]) ∧
    (get (clear_sim_variables
      (get (get initMobi "X").state "Y").state) "X").variable_id = 1 := by
  refine ⟨fun st => ⟨rfl, rfl, rfl⟩, ?_, by decide⟩
  intro st name
  simp [get, clear_sim_variables, List.lookup]

/-- `putRow` never changes the number of cells in a row. -/
theorem putRow_length (chars : List Char) (cells : List Cell) (col : ℤ)
    (colour : String) (size : ℕ) :
    (putRow cells chars col colour size).length = cells.length := by
  induction chars generalizing cells col with
  | nil => rfl
  | cons ch rest ih =>
    simp only [putRow]
    rw [ih]
    split_ifs <;> simp

/-- Cells left or right of the window `[col, col + len)` are untouched by
`putRow`. -/
theorem putRow_untouched (chars : List Char) (cells : List Cell) (col : ℤ)
    (colour : String) (size : ℕ) (c : ℕ)
    (h : (c : ℤ) < col ∨ col + chars.length ≤ (c : ℤ)) :
    (putRow cells chars col colour size).get? c = cells.get? c := by
  induction chars generalizing cells col with
  | nil => rfl
  | cons ch rest ih =>
    simp only [putRow]
    rw [ih]
    · split_ifs with hc
      · refine List.get?_set_ne _ _ ?_
        simp only [List.length_cons] at h
        omega
      · rfl
    · simp only [List.length_cons] at h
      push_cast at h ⊢
      omega

/-- Columns `≥ 24` (which do not exist on the device) are never written by
`putRow`. -/
theorem putRow_untouched_right (chars : List Char) (cells : List Cell)
    (col : ℤ) (colour : String) (size : ℕ) (c : ℕ) (h : 24 ≤ c) :
    (putRow cells chars col colour size).get? c = cells.get? c := by
  induction chars generalizing cells col with
  | nil => rfl
  | cons ch rest ih =>
    simp only [putRow]
    rw [ih]
    split_ifs with hc
    · refine List.get?_set_ne _ _ ?_
      simp only [CDU_COLUMNS] at hc
      omega
    · rfl

/-- C7: `put_text` never errors and is bounds-safe: a row outside
`[0, 14)` makes the whole call a no-op; every cell in a different row, or
left of `col`, or at/after `col + len(text)`, or at a column `≥ 24`, is
left unchanged (so characters aimed outside `[0,14)×[0,24)` are silently
dropped and text is truncated at column 23); the grid's shape is
preserved. -/
theorem put_text_spec :
    (∀ (grid : Grid) (text : String) (row col : ℤ) (colour : String) (size : ℕ),
      ¬ (0 ≤ row ∧ row < 14) →
      put_text grid text row col colour size = grid) ∧
    (∀ (grid : Grid) (text : String) (row col : ℤ) (colour : String) (size : ℕ)
      (r c : ℕ),
      ((r : ℤ) ≠ row ∨ (c : ℤ) < col ∨ col + text.length ≤ (c : ℤ)) →
      cellAt (put_text grid text row col colour size) r c = cellAt grid r c) ∧
    (∀ (grid : Grid) (text : String) (row col : ℤ) (colour : String) (size : ℕ)
      (r c : ℕ), 24 ≤ c →
      cellAt (put_text grid text row col colour size) r c = cellAt grid r c) ∧
    (∀ (grid : Grid) (text : String) (row col : ℤ) (colour : String) (size : ℕ),
      (put_text grid text row col colour size).length = grid.length) := by
  have hrow : ∀ (grid : Grid) (f : List Cell → List Cell) (rn r c : ℕ),
      (∀ cells, (f cells).get? c = cells.get? c) →
      cellAt (modifyRow grid rn f) r c = cellAt grid r c := by
    intro grid f rn r c hf
    unfold modifyRow
    cases hg : grid.get? rn with
    | none => rfl
    | some cells =>
      dsimp only
      have hlt : rn < grid.length := by
        by_contra hge
        rw [List.get?_eq_none.mpr (by omega)] at hg
        cases hg
      unfold cellAt
      rcases eq_or_ne r rn with hr | hr
      · subst hr
        rw [List.get?_set_eq_of_lt _ hlt, hg]
        simpa using hf cells
      · rw [List.get?_set_ne _ _ (Ne.symm hr)]
  refine ⟨?_, ?_, ?_, ?_⟩
  · intro grid text row col colour size h
    unfold put_text
    rw [if_neg (by simpa [CDU_ROWS] using h)]
  · intro grid text row col colour size r c h
    unfold put_text
    split_ifs with hb
    · rcases h with h | h
      · unfold modifyRow
        cases hg : grid.get? row.toNat with
        | none => rfl
        | some cells =>
          unfold cellAt
          rw [List.get?_set_ne]
          omega
      · exact hrow grid _ row.toNat r c
          (fun cells => putRow_untouched _ cells col colour size c (by
            simpa using h))
    · rfl
  · intro grid text row col colour size r c h
    unfold put_text
    split_ifs with hb
    · exact hrow grid _ row.toNat r c
        (fun cells => putRow_untouched_right _ cells col colour size c h)
    · rfl
  · intro grid text row col colour size
    unfold put_text
    split_ifs
    · unfold modifyRow
      cases hg : grid.get? row.toNat with
      | none => rfl
      | some cells => rw [List.length_set]
    · rfl

/-- Witness for C7 at concrete inputs: row 20 is a no-op; with text "AB"
at (0,0), the cells at (1,0), (0,5) and (0,24) are untouched; the shape
is preserved. -/
theorem put_text_spec_witness :
    put_text empty_grid "XYZ" 20 0 "a" 0 = empty_grid ∧
    cellAt (put_text empty_grid "AB" 0 0 "a" 0) 1 0 = cellAt empty_grid 1 0 ∧
    cellAt (put_text empty_grid "AB" 0 0 "a" 0) 0 5 = cellAt empty_grid 0 5 ∧
    cellAt (put_text empty_grid "AB" 0 0 "a" 0) 0 24 = cellAt empty_grid 0 24 ∧
    (put_text empty_grid "AB" 0 0 "a" 0).length = empty_grid.length :=
  ⟨put_text_spec.1 empty_grid "XYZ" 20 0 "a" 0 (by decide),
   put_text_spec.2.1 empty_grid "AB" 0 0 "a" 0 1 0 (Or.inl (by decide)),
   put_text_spec.2.1 empty_grid "AB" 0 0 "a" 0 0 5 (Or.inr (Or.inr (by decide))),
   put_text_spec.2.2.1 empty_grid "AB" 0 0 "a" 0 0 24 (by decide),
   put_text_spec.2.2.2 empty_grid "AB" 0 0 "a" 0⟩

/-- Row-major indexing into the flattened grid: with uniform row length
24, entry `r * 24 + c` of the flattening is cell `(r, c)`. -/
theorem flatten_get? (grid : Grid) (r c : ℕ) (hc : c < 24)
    (h : ∀ row ∈ grid, row.length = 24) :
    grid.flatten.get? (r * 24 + c) = cellAt grid r c := by
  induction grid generalizing r with
  | nil =>
    simp [cellAt]
  | cons row rest ih =>
    have hlen : row.length = 24 := h row (by simp)
    cases r with
    | zero =>
      simp only [List.flatten_cons, Nat.zero_mul, Nat.zero_add]
      rw [List.get?_append (by omega)]
      simp [cellAt]
    | succ r' =>
      simp only [List.flatten_cons]
      rw [List.get?_append_right (by omega)]
      have harith : (r' + 1) * 24 + c - row.length = r' * 24 + c := by
        rw [hlen]; ring_nf; omega
      rw [harith, ih r' (fun rw hrw => h rw (by simp [hrw]))]
      simp [cellAt]

set_option maxRecDepth 10000 in
/-- C9: `grid_to_payload` of a well-formed 14x24 grid has target
`"Display"` and exactly `336 = 14*24` cell entries, in row-major order
(entry `r*24 + c` is cell `(r, c)`); on a freshly allocated `empty_grid`
all 336 entries are the default blank cell `[]`. -/
theorem grid_to_payload_spec :
    (∀ grid : Grid, grid.length = 14 → (∀ row ∈ grid, row.length = 24) →
      (grid_to_payload grid).target = "Display" ∧
      (grid_to_payload grid).data.length = 336 ∧
      ∀ r c : ℕ, r < 14 → c < 24 →
        (grid_to_payload grid).data.get? (r * 24 + c) = cellAt grid r c) ∧
    ((grid_to_payload empty_grid).data.length = 336 ∧
     ∀ cell ∈ (grid_to_payload empty_grid).data, cell = Cell.empty) := by
  constructor
  · intro grid hlen hrows
    refine ⟨rfl, ?_, ?_⟩
    · show grid.flatten.length = 336
      rw [List.length_flatten,
        show grid.map List.length = List.replicate 14 24 from
          List.eq_replicate.mpr ⟨by simp [hlen], by
            intro b hb
            obtain ⟨row, hrow, rfl⟩ := List.mem_map.mp hb
            exact hrows row hrow⟩]
      simp
    · intro r c _ hc
      exact flatten_get? grid r c hc hrows
  · exact ⟨by decide, by decide⟩

set_option maxRecDepth 10000 in
/-- Witness for C9 at the concrete `empty_grid`. -/
theorem grid_to_payload_spec_witness :
    (empty_grid.length = 14 ∧ ∀ row ∈ empty_grid, row.length = 24) ∧
    (grid_to_payload empty_grid).target = "Display" ∧
    (grid_to_payload empty_grid).data.length = 336 ∧
    (grid_to_payload empty_grid).data.get? (13 * 24 + 23)
      = cellAt empty_grid 13 23 :=
  ⟨⟨by decide, by decide⟩,
   (grid_to_payload_spec.1 empty_grid (by decide) (by decide)).1,
   (grid_to_payload_spec.1 empty_grid (by decide) (by decide)).2.1,
   (grid_to_payload_spec.1 empty_grid (by decide) (by decide)).2.2 13 23
     (by decide) (by decide)⟩

/-- The twenty left-column `(flag, label)` pairs of the main loop, with
`engine1Fail` normalized to 1 and every other flag normalized to 0. -/
def c8_left_pairs : List (ℕ × String) :=
  [(1, "ENG FAIL"), (0, "ENG OIL P"), (0, "FADEC FAIL"), (0, "FUEL PRESS"),
   (0, "ENG IDLE"), (0, "TRAIN"), (0, "TRAIN IDLE"), (0, "ENG MANUAL"),
   (0, "TWIST GRIP"), (0, "FUEL VALVE"), (0, "PRIME PUMP"), (0, "DEGRADED"),
   (0, "REDUND"), (0, "HYD PRESS"), (0, "GEN DISCON"), (0, "INVERTER"),
   (0, "FIRE EXT"), (0, "FIRE TEST"), (0, "BUS TIE"), (0, "STARTER")]

/-- Row 0 expected after `draw_columns` with only "ENG FAIL" visible:
its glyphs in amber large at columns 0-7, amber spaces to column 11 (the
`ljust(12)` padding), and the white spaces of the cleared content region
from column 12 on. -/
def c8_expected_row0 : List Cell :=
  "ENG FAIL".toList.map (fun ch => Cell.mk (String.mk [ch]) "a" 0) ++
    List.replicate 4 (Cell.mk " " "a" 0) ++ List.replicate 12 (Cell.mk " " "w" 0)

/-- The full expected grid for C8: row 0 as above, rows 1-12 cleared to
white spaces, row 13 untouched (still the default blank cells). -/
def c8_expected : Grid :=
  c8_expected_row0 ::
    List.replicate 12 (List.replicate 24 (Cell.mk " " "w" 0)) ++
    [List.replicate 24 Cell.empty]

set_option maxRecDepth 40000 in
/-- C8: with `cdsPage = 0` and `engine1Fail` the only active left flag,
compaction and paging yield exactly `["ENG FAIL"]`, and `draw_columns` on
a fresh grid first clears rows 0-12 (all 24 columns) to blank cells and
then writes "ENG FAIL" left-justified in a 12-character amber large
field at row 0 column 0 — so row 0 carries the glyphs of "ENG FAIL" in
columns 0-7 with the remaining columns blank, and every other
left-column row is blank. -/
theorem draw_columns_end_to_end :
    compact_labels c8_left_pairs = ["ENG FAIL"] ∧
    pySlice (compact_labels c8_left_pairs) (0*6) (0*6+6) = ["ENG FAIL"] ∧
    draw_columns empty_grid
      (pySlice (compact_labels c8_left_pairs) (0*6) (0*6+6)) [] = c8_expected := by
  refine ⟨by decide, by decide, by decide⟩

/-- C5: `compact_labels` equals filtering the pairs whose state is `1` and
projecting the labels (so states `0` and `2` are excluded), its output is a
sublist of the labels (order preserved), and on
`[(0,"A"),(1,"B"),(1,"C"),(0,"D")]` it yields `["B","C"]`. -/
theorem compact_labels_spec :
    (∀ pairs : List (ℕ × String),
      compact_labels pairs
        = (pairs.filter (fun p => decide (p.1 = 1))).map Prod.snd ∧
      List.Sublist (compact_labels pairs) (pairs.map Prod.snd)) ∧
    compact_labels [(0,"A"),(1,"B"),(1,"C"),(0,"D")] = ["B","C"] := by
  refine ⟨?_, by decide⟩
  intro pairs
  induction pairs with
  | nil => exact ⟨rfl, List.Sublist.refl _⟩
  | cons p rest ih =>
    obtain ⟨h1, h2⟩ := ih
    constructor
    · cases p with
      | mk val label =>
        by_cases hv : val = 1 <;> simp [compact_labels, hv, h1, List.filter]
    · cases p with
      | mk val label =>
        by_cases hv : val = 1
        · simpa [compact_labels, hv] using List.Sublist.cons₂ label h2
        · simpa [compact_labels, hv] using List.Sublist.cons label h2

/-- C6: the paging window `l[page*6 : page*6+6]` never errors, returns at
most 6 labels, returns exactly the elements at indices `page*6 + i` for
`i < 6` (clamped to the list), and a 14-element list windowed at page 2
yields exactly 2 labels. -/
theorem paging_spec :
    (∀ (l : List String) (page : ℕ), page ≤ 2 →
      (pySlice l (page*6) (page*6+6)).length ≤ 6 ∧
      ∀ i : ℕ, (pySlice l (page*6) (page*6+6)).get? i
        = if i < 6 then l.get? (page*6+i) else Option.none) ∧
    (∀ l : List String, l.length = 14 → (pySlice l (2*6) (2*6+6)).length = 2) := by
  constructor
  · intro l page _
    constructor
    · simp only [pySlice, List.length_drop, List.length_take]
      omega
    · intro i
      simp only [pySlice, List.get?_drop, List.get?_take_eq_if]
      split_ifs with h1 h2 h2 <;> first | rfl | omega
  · intro l hl
    simp only [pySlice, List.length_drop, List.length_take, hl]
    omega

/-- Witness for C6 at a concrete 14-element list and page 2. -/
theorem paging_spec_witness :
    (2 ≤ 2 ∧ (List.replicate 14 "L").length = 14) ∧
    (pySlice (List.replicate 14 "L") (2*6) (2*6+6)).length ≤ 6 ∧
    (pySlice (List.replicate 14 "L") (2*6) (2*6+6)).length = 2 :=
  ⟨⟨by decide, by decide⟩,
   (paging_spec.1 (List.replicate 14 "L") 2 (by decide)).1,
   paging_spec.2 (List.replicate 14 "L") (by decide)⟩

/-- `_maybe_ping` never performs a `ws.send`. -/
theorem maybe_ping_sendCalls (fail : ℕ → Bool) (now : ℤ) (s : McduSocketState) :
    (maybe_ping fail now s).sendCalls = s.sendCalls := by
  unfold maybe_ping
  cases hw : s.ws with
  | none => split_ifs <;> rfl
  | some conn => split_ifs <;> rfl

/-- `_maybe_ping` never creates a connection. -/
theorem maybe_ping_nextConn (fail : ℕ → Bool) (now : ℤ) (s : McduSocketState) :
    (maybe_ping fail now s).nextConn = s.nextConn := by
  unfold maybe_ping
  cases hw : s.ws with
  | none => split_ifs <;> rfl
  | some conn => split_ifs <;> rfl

/-- The send step performs at most one `ws.send`. -/
theorem sendOnOpen_sendCalls (fail : ℕ → Bool) (now : ℤ) (payload : Payload)
    (s : McduSocketState) :
    (sendOnOpen fail now payload s).2.sendCalls ≤ s.sendCalls + 1 := by
  cases hw : s.ws with
  | none => simp [sendOnOpen, hw]
  | some conn =>
    simp only [sendOnOpen, hw]
    split_ifs
    · simp
    · simp [maybe_ping_sendCalls]

/-- A send step that did not reach `return` leaves the connection
discarded. -/
theorem sendOnOpen_fail_ws (fail : ℕ → Bool) (now : ℤ) (payload : Payload)
    (s : McduSocketState) (h : (sendOnOpen fail now payload s).1 = false) :
    (sendOnOpen fail now payload s).2.ws = Option.none ∨ s.ws = Option.none := by
  cases hw : s.ws with
  | none => exact Or.inr rfl
  | some conn =>
    simp only [sendOnOpen, hw] at h ⊢
    split_ifs at h ⊢
    exact Or.inl rfl

/-- One loop iteration performs at most one `ws.send`. -/
theorem sendAttempt_sendCalls (fail : ℕ → Bool) (now : ℤ) (payload : Payload)
    (s : McduSocketState) :
    (sendAttempt fail now payload s).2.sendCalls ≤ s.sendCalls + 1 := by
  cases hw : s.ws with
  | none =>
    simp only [sendAttempt, hw]
    split_ifs
    · simp
    · exact sendOnOpen_sendCalls _ _ _ _
  | some conn =>
    simp only [sendAttempt, hw]
    exact sendOnOpen_sendCalls _ _ _ _

/-- A loop iteration that did not reach `return` always ends with the
connection discarded. -/
theorem sendAttempt_fail_ws (fail : ℕ → Bool) (now : ℤ) (payload : Payload)
    (s : McduSocketState) (h : (sendAttempt fail now payload s).1 = false) :
    (sendAttempt fail now payload s).2.ws = Option.none := by
  cases hw : s.ws with
  | none =>
    simp only [sendAttempt, hw] at h ⊢
    split_ifs at h ⊢
    · rfl
    · rcases sendOnOpen_fail_ws _ _ _ _ h with h2 | h2
      · exact h2
      · cases h2
  | some conn =>
    simp only [sendAttempt, hw] at h ⊢
    rcases sendOnOpen_fail_ws _ _ _ _ h with h2 | h2
    · exact h2
    · rw [hw] at h2
      cases h2

/-- C4: the sender's failure handling: for every failure pattern
`send_grid` performs at most two `ws.send` calls (one retry); a raising
send on a live connection is caught, and exactly that connection is
closed and discarded; any failed attempt leaves no connection, so when
both attempts fail `send_grid` returns with `ws = None`; and a call that
starts with no connection establishes a fresh one when the transport
allows it. -/
theorem send_grid_spec :
    (∀ (fail : ℕ → Bool) (now : ℤ) (grid : Grid) (s : McduSocketState),
      (send_grid fail now grid s).sendCalls ≤ s.sendCalls + 2) ∧
    (∀ (fail : ℕ → Bool) (now : ℤ) (payload : Payload) (s : McduSocketState)
      (conn : ℕ), s.ws = Option.some conn → fail s.opCount = true →
      sendAttempt fail now payload s
        = (false, { s with
            opCount := s.opCount + 1,
            sendCalls := s.sendCalls + 1,
            ws := Option.none,
            closed := s.closed ++ [conn] })) ∧
    (∀ (fail : ℕ → Bool) (now : ℤ) (payload : Payload) (s : McduSocketState),
      (sendAttempt fail now payload s).1 = false →
      (sendAttempt fail now payload s).2.ws = Option.none) ∧
    (∀ (fail : ℕ → Bool) (now : ℤ) (grid : Grid) (s : McduSocketState),
      (sendAttempt fail now (grid_to_payload grid) s).1 = false →
      (sendAttempt fail now (grid_to_payload grid)
        (sendAttempt fail now (grid_to_payload grid) s).2).1 = false →
      (send_grid fail now grid s).ws = Option.none) ∧
    (∀ (fail : ℕ → Bool) (now : ℤ) (payload : Payload) (s : McduSocketState),
      s.ws = Option.none → fail s.opCount = false →
      (sendAttempt fail now payload s).2.nextConn = s.nextConn + 1) := by
  refine ⟨?_, ?_, sendAttempt_fail_ws, ?_, ?_⟩
  · intro fail now grid s
    unfold send_grid
    dsimp only
    split_ifs
    · exact le_trans (sendAttempt_sendCalls _ _ _ _) (by omega)
    · exact le_trans (sendAttempt_sendCalls _ _ _ _)
        (by have := sendAttempt_sendCalls fail now (grid_to_payload grid) s; omega)
  · intro fail now payload s conn hws hf
    unfold sendAttempt sendOnOpen
    rw [hws]
    dsimp only
    rw [if_pos hf]
  · intro fail now grid s h1 h2
    unfold send_grid
    dsimp only
    rw [if_neg (by simp [h1])]
    exact sendAttempt_fail_ws _ _ _ _ h2
  · intro fail now payload s hws hf
    unfold sendAttempt
    rw [hws]
    dsimp only
    rw [if_neg (by simp [hf])]
    unfold sendOnOpen
    dsimp only
    split_ifs
    · rfl
    · show (maybe_ping fail now _).nextConn = s.nextConn + 1
      rw [maybe_ping_nextConn]

/-- Witness for C4 at concrete inputs: the always-failing transport on a
fresh socket (both attempts fail, no connection remains), a raising send
on a live connection, and a clean first connect. -/
theorem send_grid_spec_witness :
    (send_grid (fun _ => true) 0 empty_grid initMcdu).sendCalls
      ≤ initMcdu.sendCalls + 2 ∧
    ((⟨Option.some 5, 6, 3, 0, 1, [], []⟩ : McduSocketState).ws = Option.some 5 ∧
      sendAttempt (fun _ => true) 0 (grid_to_payload empty_grid)
        ⟨Option.some 5, 6, 3, 0, 1, [], []⟩
        = (false, ⟨Option.none, 6, 4, 0, 2, [5], []⟩)) ∧
    ((sendAttempt (fun _ => true) 0 (grid_to_payload empty_grid) initMcdu).1
        = false ∧
      (sendAttempt (fun _ => true) 0 (grid_to_payload empty_grid)
        initMcdu).2.ws = Option.none) ∧
    (send_grid (fun _ => true) 0 empty_grid initMcdu).ws = Option.none ∧
    (initMcdu.ws = Option.none ∧
      (sendAttempt (fun _ => false) 0 (grid_to_payload empty_grid)
        initMcdu).2.nextConn = initMcdu.nextConn + 1) := by
  refine ⟨send_grid_spec.1 (fun _ => true) 0 empty_grid initMcdu,
    ⟨rfl, ?_⟩, ⟨by decide, ?_⟩, ?_, ⟨rfl, ?_⟩⟩
  · exact send_grid_spec.2.1 (fun _ => true) 0 (grid_to_payload empty_grid)
      ⟨Option.some 5, 6, 3, 0, 1, [], []⟩ 5 rfl rfl
  · exact send_grid_spec.2.2.1 (fun _ => true) 0 (grid_to_payload empty_grid)
      initMcdu (by decide)
  · exact send_grid_spec.2.2.2.1 (fun _ => true) 0 empty_grid initMcdu
      (by decide) (by decide)
  · exact send_grid_spec.2.2.2.2 (fun _ => false) 0 (grid_to_payload empty_grid)
      initMcdu rfl rfl

end EC135
